import Mathlib

set_option autoImplicit false

namespace SafetyAI

/-!
Shallow embedding of the Decision Stream Analyzer core of the
safety-ai-decision-system repository.

Generator: src/scripts/generate_demo_data.py (the per-draw loop body with its
escalation rule).  The loop draws a uniform real `roll` and branches on
`roll < 0.75` / `roll < 0.93`; we abstract each draw by the branch it takes
(`BaseDecision`), which is the only thing the loop body reads from the roll.

Analyzer: src/app/streamlit_app.py — `validate_schema`, the three summary
metrics, the `warning_df` filter and the `calm_streak` computation.
-/

/-- The three-way outcome of one uniform draw in the generator loop:
`roll < 0.75` → normal, `0.75 ≤ roll < 0.93` → warning, otherwise critical. -/
inductive BaseDecision
  | normal
  | warning
  | critical
deriving DecidableEq, Repr

/-- One emitted row of the generator: the values appended to `decisions`,
`risk_levels` and `warning_streaks` for one draw. -/
structure GenRecord where
  decision : String
  risk_level : Nat
  warning_streak : Nat
deriving DecidableEq, Repr

/-- One iteration of the generator loop body
(src/scripts/generate_demo_data.py lines 21–44): the base branch sets
`risk`, updates `current_streak` and sets `decision`; then the escalation
rule (`if current_streak >= 3 and risk == 1`) overrides `risk`/`decision`
without touching the streak.  Returns the new streak and the emitted row. -/
def genStep (streak : Nat) (b : BaseDecision) : Nat × GenRecord :=
  let base : Nat × Nat × String :=
    match b with
    | .normal => (0, 0, "Normal")
    | .warning => (1, streak + 1, "Warning")
    | .critical => (2, streak + 1, "Critical")
  let risk := base.1
  let streak' := base.2.1
  let decision := base.2.2
  if 3 ≤ streak' ∧ risk = 1 then
    (streak', ⟨"Critical", 2, streak'⟩)
  else
    (streak', ⟨decision, risk, streak'⟩)

/-- Value of `current_streak` after running the loop over `draws`,
starting from `s`. -/
def streakAfter (s : Nat) : List BaseDecision → Nat
  | [] => s
  | b :: bs => streakAfter (genStep s b).1 bs

/-- The rows emitted by the generator loop over `draws`, starting with
streak `s`. -/
def generateAux (s : Nat) : List BaseDecision → List GenRecord
  | [] => []
  | b :: bs => (genStep s b).2 :: generateAux (genStep s b).1 bs

/-- The whole generation loop: `current_streak = 0` before the first draw. -/
def generate (draws : List BaseDecision) : List GenRecord :=
  generateAux 0 draws

/-! ### Analyzer data model (src/app/streamlit_app.py) -/

/-- One row of the analyzed table.  The four CSV columns are always present;
`is_calm` and `calm_streak` are the derived columns the dashboard adds
(absent, i.e. `none`, until the augmentation step runs). -/
structure Row where
  timestamp : Int
  system_decision : String
  warning_streak : Nat
  risk_level : Nat
  is_calm : Option Bool := none
  calm_streak : Option Nat := none
deriving DecidableEq, Repr

/-- `REQUIRED_COLUMNS` of src/app/streamlit_app.py lines 23–28. -/
def REQUIRED_COLUMNS : List String :=
  ["timestamp", "system_decision", "warning_streak", "risk_level"]

/-- `validate_schema` (src/app/streamlit_app.py lines 50–64): computes
`missing = REQUIRED_COLUMNS - set(df.columns)` and succeeds iff `missing`
is empty.  It inspects only the column names, never the cell values. -/
def validate_schema (cols : List String) : Bool :=
  REQUIRED_COLUMNS.all (fun c => cols.contains c)

/-- The three summary metrics (src/app/streamlit_app.py lines 202–204):
each is `(df["system_decision"] == s).sum()`, the number of rows whose
decision is exactly the string `s`. -/
structure Summary where
  normal : Nat
  warning : Nat
  critical : Nat
deriving DecidableEq, Repr

/-- The high-level safety summary: the three `.metric` values. -/
def summarize (rows : List Row) : Summary :=
  ⟨(rows.filter (fun r => r.system_decision == "Normal")).length,
   (rows.filter (fun r => r.system_decision == "Warning")).length,
   (rows.filter (fun r => r.system_decision == "Critical")).length⟩

/-- `warning_df = df[df["system_decision"] == "Warning"]`
(src/app/streamlit_app.py line 243). -/
def filterWarnings (rows : List Row) : List Row :=
  rows.filter (fun r => r.system_decision == "Warning")

/-! ### Calm-streak computation (src/app/streamlit_app.py lines 264–270)

```
df["is_calm"] = df["system_decision"] == "Normal"
df["calm_streak"] = df["is_calm"].astype(int)
    .groupby((~df["is_calm"]).cumsum()).cumsum()
```

We embed this pandas expression literally: the boolean column, its integer
cast, the cumulative sum of the negated column as group labels, and the
within-group cumulative sum (for a grouped cumsum, entry `i` is the sum of
the values at positions `j ≤ i` carrying the same group label as `i`). -/

/-- `df["is_calm"]`: the row is calm iff its decision is the string
`"Normal"`. -/
def isCalm (d : String) : Bool := d == "Normal"

/-- `df["is_calm"].astype(int)` for one cell. -/
def calmInt (d : String) : Nat := if isCalm d then 1 else 0

/-- `(~df["is_calm"])` cast to int for one cell. -/
def notCalmInt (d : String) : Nat := if isCalm d then 0 else 1

/-- Inclusive cumulative sum (pandas `.cumsum()`), accumulator `acc`. -/
def cumsumFrom (acc : Nat) : List Nat → List Nat
  | [] => []
  | x :: xs => (acc + x) :: cumsumFrom (acc + x) xs

/-- `(~df["is_calm"]).cumsum()`: the group labels. -/
def groupLabels (ds : List String) : List Nat :=
  cumsumFrom 0 (ds.map notCalmInt)

/-- `.groupby(labels).cumsum()`: entry `i` is the sum of `vals[j]` over all
`j ≤ i` whose label equals the label of `i` (a grouped cumulative sum keeps
the original index alignment). -/
def groupedCumsum (vals labels : List Nat) : List Nat :=
  (List.range vals.length).map (fun i =>
    (((List.range (i + 1)).filter (fun j => labels.getD j 0 == labels.getD i 0)).map
      (fun j => vals.getD j 0)).sum)

/-- The `calm_streak` column as a function of the decision column. -/
def calm_streak_list (ds : List String) : List Nat :=
  groupedCumsum (ds.map calmInt) (groupLabels ds)

/-- Writing the two derived columns into one row. -/
def augmentRow (r : Row) (c : Nat) : Row :=
  { r with is_calm := some (isCalm r.system_decision),
           calm_streak := some c }

/-- The augmentation step: add the `is_calm` and `calm_streak` columns to
the table; all other columns are untouched. -/
def augment (rows : List Row) : List Row :=
  List.zipWith augmentRow rows
    (calm_streak_list (rows.map (fun r => r.system_decision)))

/-! scratch checks -/
example :
    calm_streak_list ["Normal", "Warning", "Warning", "Warning", "Normal"] =
      [1, 0, 0, 0, 1] := by decide

example :
    calm_streak_list ["Normal", "Normal", "Warning", "Normal", "Normal"] =
      [1, 2, 0, 1, 2] := by decide

example :
    (generate [.warning, .warning, .warning, .normal, .critical]).map
      (fun r => (r.decision, r.warning_streak)) =
      [("Warning", 1), ("Warning", 2), ("Critical", 3), ("Normal", 0),
       ("Critical", 1)] := by decide

/-! ### Generator lemmas -/

/-- Fallback row for positional lookup into generator output. -/
def dummyRecord : GenRecord := ⟨"", 0, 0⟩

theorem genStep_fst (s : Nat) (b : BaseDecision) :
    (genStep s b).1 =
      match b with
      | .normal => 0
      | .warning => s + 1
      | .critical => s + 1 := by
  cases b <;> simp only [genStep] <;> split <;> rfl

theorem genStep_snd_streak (s : Nat) (b : BaseDecision) :
    ((genStep s b).2).warning_streak = (genStep s b).1 := by
  cases b <;> simp only [genStep] <;> split <;> rfl

theorem streakAfter_append (s : Nat) (l₁ l₂ : List BaseDecision) :
    streakAfter s (l₁ ++ l₂) = streakAfter (streakAfter s l₁) l₂ := by
  induction l₁ generalizing s with
  | nil => rfl
  | cons b bs ih => simp [streakAfter, ih]

theorem generateAux_append (s : Nat) (l₁ l₂ : List BaseDecision) :
    generateAux s (l₁ ++ l₂) =
      generateAux s l₁ ++ generateAux (streakAfter s l₁) l₂ := by
  induction l₁ generalizing s with
  | nil => rfl
  | cons b bs ih => simp [generateAux, streakAfter, ih]

theorem generateAux_length (s : Nat) (l : List BaseDecision) :
    (generateAux s l).length = l.length := by
  induction l generalizing s with
  | nil => rfl
  | cons b bs ih => simp [generateAux, ih]

/-- C3, C5 workhorse: positional description of the emitted streak values,
for an arbitrary incoming streak `s`. -/
theorem gen_streak_aux (draws : List BaseDecision) :
    ∀ (s i : Nat), i < draws.length →
      ((generateAux s draws).getD i dummyRecord).warning_streak =
        (match draws.getD i BaseDecision.normal with
          | .normal => 0
          | .warning => streakAfter s (draws.take i) + 1
          | .critical => streakAfter s (draws.take i) + 1) ∧
      streakAfter s (draws.take (i + 1)) =
        ((generateAux s draws).getD i dummyRecord).warning_streak := by
  induction draws with
  | nil => intro s i h; cases h
  | cons b bs ih =>
    intro s i h
    cases i with
    | zero =>
      refine ⟨?_, ?_⟩
      · simpa [generateAux, streakAfter, genStep_fst] using genStep_snd_streak s b
      · simpa [generateAux, streakAfter] using (genStep_snd_streak s b).symm
    | succ i =>
      have hlt : i < bs.length := by simpa using h
      have := ih (genStep s b).1 i hlt
      simpa [generateAux, streakAfter] using this

/-- C10 workhorse: over any incoming streak, an emitted Warning row carries
streak 1 or 2. -/
theorem gen_warning_aux (draws : List BaseDecision) :
    ∀ (s : Nat) (r : GenRecord), r ∈ generateAux s draws →
      r.decision = "Warning" → r.warning_streak = 1 ∨ r.warning_streak = 2 := by
  induction draws with
  | nil => intro s r hr; cases hr
  | cons b bs ih =>
    intro s r hr hw
    rcases List.mem_cons.mp hr with h | h
    · subst h
      cases b with
      | normal => simp [genStep] at hw
      | warning =>
        by_cases h3 : 3 ≤ s + 1
        · exfalso
          simp [genStep, h3] at hw
        · have : ((genStep s BaseDecision.warning).2).warning_streak = s + 1 := by
            simp [genStep, h3]
          omega
      | critical =>
        by_cases h3 : 3 ≤ s + 1 <;> simp [genStep, h3] at hw
    · exact ih (genStep s b).1 r h hw

/-- C3: in the generator, whenever a draw's base decision is Warning and the
streak counter, after its increment for that draw, is at least 3, the row
emitted at that position is exactly `⟨"Critical", 2, streak⟩` — decision
Critical with risk_level 2, never Warning — and the streak counter carried
past that draw equals the post-increment value: the override does not reset
it.  The draw position is presented as `pre ++ warning :: post`. -/
theorem escalation_override_fires (pre post : List BaseDecision)
    (hs : 3 ≤ streakAfter 0 pre + 1) :
    (generate (pre ++ BaseDecision.warning :: post)).getD pre.length dummyRecord =
      ⟨"Critical", 2, streakAfter 0 pre + 1⟩ ∧
    streakAfter 0 (pre ++ [BaseDecision.warning]) = streakAfter 0 pre + 1 := by
  constructor
  · rw [generate, generateAux_append,
      List.getD_append_right _ _ _ _ (by rw [generateAux_length])]
    rw [generateAux_length, Nat.sub_self]
    simp [generateAux, genStep, hs]
  · rw [streakAfter_append]
    simp [streakAfter, genStep_fst]

/-- C3 witness at the concrete draw list `[warning, warning, warning]`. -/
theorem escalation_override_fires_witness :
    3 ≤ streakAfter 0 [BaseDecision.warning, BaseDecision.warning] + 1 ∧
    ((generate ([BaseDecision.warning, BaseDecision.warning] ++
        BaseDecision.warning :: [])).getD
        ([BaseDecision.warning, BaseDecision.warning] : List BaseDecision).length
        dummyRecord =
      ⟨"Critical", 2, streakAfter 0 [BaseDecision.warning, BaseDecision.warning] + 1⟩ ∧
    streakAfter 0
        ([BaseDecision.warning, BaseDecision.warning] ++ [BaseDecision.warning]) =
      streakAfter 0 [BaseDecision.warning, BaseDecision.warning] + 1) :=
  ⟨by decide,
   escalation_override_fires [BaseDecision.warning, BaseDecision.warning] []
     (by decide)⟩

/-- C5: the generator streak counter starts at 0 (`generate` runs the loop
from streak 0); the value stored in row `i` is 0 when draw `i` is Normal and
previous-streak + 1 when it is Warning or Critical, with no upper bound; and
the counter carried past row `i` equals the stored post-increment value — in
particular the escalation override affects neither the stored
`warning_streak` nor the counter. -/
theorem generator_streak_semantics (draws : List BaseDecision) (i : Nat)
    (hi : i < draws.length) :
    generate draws = generateAux 0 draws ∧
    ((generate draws).getD i dummyRecord).warning_streak =
      (match draws.getD i BaseDecision.normal with
        | .normal => 0
        | .warning => streakAfter 0 (draws.take i) + 1
        | .critical => streakAfter 0 (draws.take i) + 1) ∧
    streakAfter 0 (draws.take (i + 1)) =
      ((generate draws).getD i dummyRecord).warning_streak :=
  ⟨rfl, (gen_streak_aux draws 0 i hi).1, (gen_streak_aux draws 0 i hi).2⟩

/-- C5 witness at `[normal, warning, critical]`, position 2. -/
theorem generator_streak_semantics_witness :
    2 < ([BaseDecision.normal, BaseDecision.warning, BaseDecision.critical] :
        List BaseDecision).length ∧
    (generate [BaseDecision.normal, BaseDecision.warning, BaseDecision.critical] =
      generateAux 0 [BaseDecision.normal, BaseDecision.warning, BaseDecision.critical] ∧
    ((generate [BaseDecision.normal, BaseDecision.warning,
        BaseDecision.critical]).getD 2 dummyRecord).warning_streak =
      (match ([BaseDecision.normal, BaseDecision.warning,
          BaseDecision.critical] : List BaseDecision).getD 2 BaseDecision.normal with
        | .normal => 0
        | .warning => streakAfter 0 (([BaseDecision.normal, BaseDecision.warning,
            BaseDecision.critical] : List BaseDecision).take 2) + 1
        | .critical => streakAfter 0 (([BaseDecision.normal, BaseDecision.warning,
            BaseDecision.critical] : List BaseDecision).take 2) + 1) ∧
    streakAfter 0 (([BaseDecision.normal, BaseDecision.warning,
        BaseDecision.critical] : List BaseDecision).take (2 + 1)) =
      ((generate [BaseDecision.normal, BaseDecision.warning,
          BaseDecision.critical]).getD 2 dummyRecord).warning_streak) :=
  ⟨by decide,
   generator_streak_semantics
     [BaseDecision.normal, BaseDecision.warning, BaseDecision.critical] 2
     (by decide)⟩

/-- C10: every row of the generator's output whose emitted decision is
Warning has `warning_streak` equal to 1 or 2: once a non-Normal run reaches
length 3, Warning draws are emitted as Critical. -/
theorem generated_warning_streak_bound (draws : List BaseDecision)
    (r : GenRecord) (hr : r ∈ generate draws) (hw : r.decision = "Warning") :
    r.warning_streak = 1 ∨ r.warning_streak = 2 :=
  gen_warning_aux draws 0 r hr hw

/-- C10 witness: the one-draw list `[warning]` emits `⟨"Warning", 1, 1⟩`. -/
theorem generated_warning_streak_bound_witness :
    (⟨"Warning", 1, 1⟩ : GenRecord) ∈ generate [BaseDecision.warning] ∧
    (⟨"Warning", 1, 1⟩ : GenRecord).decision = "Warning" ∧
    ((⟨"Warning", 1, 1⟩ : GenRecord).warning_streak = 1 ∨
      (⟨"Warning", 1, 1⟩ : GenRecord).warning_streak = 2) :=
  ⟨by decide, rfl,
   generated_warning_streak_bound [BaseDecision.warning] ⟨"Warning", 1, 1⟩
     (by decide) rfl⟩

/-! ### Analyzer lemmas and claims -/

/-- A decision string recognized by one of the three summary metrics. -/
def knownDecision (r : Row) : Bool :=
  r.system_decision == "Normal" || r.system_decision == "Warning" ||
    r.system_decision == "Critical"

theorem summarize_sum_filter (rows : List Row) :
    (summarize rows).normal + (summarize rows).warning + (summarize rows).critical =
      (rows.filter knownDecision).length := by
  induction rows with
  | nil => rfl
  | cons r rs ih =>
    simp only [summarize, List.filter_cons, knownDecision] at ih ⊢
    by_cases h1 : r.system_decision = "Normal"
    · simp [h1]; omega
    · by_cases h2 : r.system_decision = "Warning"
      · simp [h1, h2]; omega
      · by_cases h3 : r.system_decision = "Critical"
        · simp [h1, h2, h3]; omega
        · simp [h1, h2, h3]; omega

theorem calm_streak_list_length (ds : List String) :
    (calm_streak_list ds).length = ds.length := by
  simp [calm_streak_list, groupedCumsum]

theorem augment_length (rows : List Row) :
    (augment rows).length = rows.length := by
  simp [augment, List.length_zipWith, calm_streak_list_length]

/-- C7: the empty sequence is a valid boundary case: the summary counts are
all zero, the augmented sequence is empty, the Warning view is empty, and
all three operations are total (no failure path exists for it). -/
theorem empty_input_boundary :
    summarize [] = ⟨0, 0, 0⟩ ∧ augment ([] : List Row) = [] ∧
    filterWarnings [] = [] :=
  ⟨rfl, rfl, rfl⟩

/-- C2: on a sequence whose decisions all lie in the three recognized
categories (the DecisionSequence data-model invariant), `summarize` returns
the exact per-category occurrence counts and they add up to the length of
the sequence. -/
theorem summarize_count_invariant (rows : List Row)
    (h : ∀ r ∈ rows, r.system_decision = "Normal" ∨ r.system_decision = "Warning" ∨
      r.system_decision = "Critical") :
    (summarize rows).normal = (rows.map (fun r => r.system_decision)).count "Normal" ∧
    (summarize rows).warning = (rows.map (fun r => r.system_decision)).count "Warning" ∧
    (summarize rows).critical = (rows.map (fun r => r.system_decision)).count "Critical" ∧
    (summarize rows).normal + (summarize rows).warning + (summarize rows).critical =
      rows.length := by
  refine ⟨?_, ?_, ?_, ?_⟩
  · simp [summarize, List.count_eq_countP, List.countP_map,
      ← List.countP_eq_length_filter, Function.comp_def]
  · simp [summarize, List.count_eq_countP, List.countP_map,
      ← List.countP_eq_length_filter, Function.comp_def]
  · simp [summarize, List.count_eq_countP, List.countP_map,
      ← List.countP_eq_length_filter, Function.comp_def]
  · rw [summarize_sum_filter, List.filter_eq_self.mpr]
    intro r hr
    rcases h r hr with h1 | h1 | h1 <;> simp [knownDecision, h1]

/-- Concrete rows used by witnesses. -/
def rowN : Row :=
  { timestamp := 0, system_decision := "Normal", warning_streak := 0, risk_level := 0 }

def rowW : Row :=
  { timestamp := 1, system_decision := "Warning", warning_streak := 1, risk_level := 1 }

def rowC : Row :=
  { timestamp := 2, system_decision := "Critical", warning_streak := 2, risk_level := 2 }

/-- C2 witness at the concrete three-row sequence `[rowN, rowW, rowC]`. -/
theorem summarize_count_invariant_witness :
    (∀ r ∈ [rowN, rowW, rowC], r.system_decision = "Normal" ∨
      r.system_decision = "Warning" ∨ r.system_decision = "Critical") ∧
    ((summarize [rowN, rowW, rowC]).normal =
        (([rowN, rowW, rowC] : List Row).map (fun r => r.system_decision)).count "Normal" ∧
      (summarize [rowN, rowW, rowC]).warning =
        (([rowN, rowW, rowC] : List Row).map (fun r => r.system_decision)).count "Warning" ∧
      (summarize [rowN, rowW, rowC]).critical =
        (([rowN, rowW, rowC] : List Row).map (fun r => r.system_decision)).count "Critical" ∧
      (summarize [rowN, rowW, rowC]).normal + (summarize [rowN, rowW, rowC]).warning +
          (summarize [rowN, rowW, rowC]).critical =
        ([rowN, rowW, rowC] : List Row).length) :=
  ⟨by decide, summarize_count_invariant [rowN, rowW, rowC] (by decide)⟩

/-- A row whose decision lies outside the three recognized categories. -/
def unknownRow : Row :=
  { timestamp := 0, system_decision := "Degraded", warning_streak := 0, risk_level := 0 }

/-- C1 counterexample: a sequence containing the out-of-category decision
"Degraded" is NOT rejected.  The only schema gate in the code,
`validate_schema`, looks at column names alone and passes, and processing
runs to completion, producing summary counts, an augmented sequence and the
Warning view — the unknown category is silently counted in none of the
three metrics instead of raising a SchemaViolation. -/
theorem unknown_decision_not_rejected :
    unknownRow.system_decision ∉ (["Normal", "Warning", "Critical"] : List String) ∧
    validate_schema REQUIRED_COLUMNS = true ∧
    summarize [unknownRow] = ⟨0, 0, 0⟩ ∧
    augment [unknownRow] =
      [{ unknownRow with is_calm := some false, calm_streak := some 0 }] ∧
    filterWarnings [unknownRow] = [] := by decide

/-- C1 amended: schema validation checks only the presence of the four
required columns, so a sequence containing a decision value outside the
three recognized categories passes validation and is processed to
completion (an augmented row is produced for every input row); the unknown
value is not coerced to any category — the three summary counts add up to
the number of rows whose decision IS one of the three categories, so
out-of-category rows are silently ignored by the summary. -/
theorem unknown_decision_processed (rows : List Row) :
    validate_schema REQUIRED_COLUMNS = true ∧
    (augment rows).length = rows.length ∧
    (summarize rows).normal + (summarize rows).warning + (summarize rows).critical =
      (rows.filter knownDecision).length :=
  ⟨by decide, augment_length rows, summarize_sum_filter rows⟩

/-! ### Calm-streak recurrence (C4) -/

theorem cumsumFrom_getD (l : List Nat) :
    ∀ (acc i : Nat), i < l.length →
      (cumsumFrom acc l).getD i 0 = acc + (l.take (i + 1)).sum := by
  induction l with
  | nil => intro acc i h; cases h
  | cons x xs ih =>
    intro acc i h
    cases i with
    | zero => simp [cumsumFrom]
    | succ i =>
      have hlt : i < xs.length := by simpa using h
      have := ih (acc + x) i hlt
      simp only [cumsumFrom, List.getD_cons_succ, List.take_succ_cons,
        List.sum_cons] at this ⊢
      omega

theorem groupLabels_getD (ds : List String) (i : Nat) (h : i < ds.length) :
    (groupLabels ds).getD i 0 = ((ds.take (i + 1)).map notCalmInt).sum := by
  rw [groupLabels, cumsumFrom_getD (ds.map notCalmInt) 0 i (by simpa using h)]
  rw [Nat.zero_add, ← List.map_take]

theorem groupLabels_mono (ds : List String) (i j : Nat) (hij : i ≤ j)
    (hj : j < ds.length) :
    (groupLabels ds).getD i 0 ≤ (groupLabels ds).getD j 0 := by
  have hi : i < ds.length := Nat.lt_of_le_of_lt hij hj
  rw [groupLabels_getD ds i hi, groupLabels_getD ds j hj]
  have hsplit : ds.take (j + 1) =
      ds.take (i + 1) ++ (ds.drop (i + 1)).take (j - i) := by
    rw [← List.take_add]
    congr 1
    omega
  rw [hsplit, List.map_append, List.sum_append]
  exact Nat.le_add_right _ _

theorem groupLabels_succ (ds : List String) (i : Nat) (h : i + 1 < ds.length) :
    (groupLabels ds).getD (i + 1) 0 =
      (groupLabels ds).getD i 0 + notCalmInt (ds.getD (i + 1) "") := by
  have hi : i < ds.length := Nat.lt_of_succ_lt h
  rw [groupLabels_getD ds (i + 1) h, groupLabels_getD ds i hi]
  rw [List.take_succ (n := i + 1), List.getElem?_eq_getElem h]
  rw [List.map_append, List.sum_append, List.getD_eq_getElem ds "" h]
  simp

theorem getD_map_range (n i : Nat) (f : Nat → Nat) (h : i < n) :
    ((List.range n).map f).getD i 0 = f i := by
  rw [List.getD_eq_getElem _ _ (by simpa using h)]
  simp

theorem calmVals_getD (ds : List String) (j : Nat) (h : j < ds.length) :
    (ds.map calmInt).getD j 0 = calmInt (ds.getD j "") := by
  rw [List.getD_eq_getElem _ _ (by simpa using h),
    List.getD_eq_getElem ds "" h]
  simp

theorem calm_streak_list_getD (ds : List String) (i : Nat) (h : i < ds.length) :
    (calm_streak_list ds).getD i 0 =
      (((List.range (i + 1)).filter (fun j =>
          (groupLabels ds).getD j 0 == (groupLabels ds).getD i 0)).map
        (fun j => (ds.map calmInt).getD j 0)).sum := by
  rw [calm_streak_list, groupedCumsum,
    getD_map_range _ i _ (by simpa using h)]

theorem calm_streak_base (ds : List String) (h : 0 < ds.length) :
    (calm_streak_list ds).getD 0 0 = calmInt (ds.getD 0 "") := by
  rw [calm_streak_list_getD ds 0 h]
  rw [show List.range 1 = [0] from rfl]
  simp [-List.getD_eq_getElem?_getD]
  exact calmVals_getD ds 0 h

theorem calm_streak_step (ds : List String) (i : Nat) (h : i + 1 < ds.length) :
    (calm_streak_list ds).getD (i + 1) 0 =
      (if isCalm (ds.getD (i + 1) "") then (calm_streak_list ds).getD i 0 + 1
        else 0) := by
  have hi : i < ds.length := Nat.lt_of_succ_lt h
  rw [calm_streak_list_getD ds (i + 1) h, calm_streak_list_getD ds i hi]
  rw [List.range_succ, List.filter_append, List.map_append, List.sum_append]
  by_cases hc : isCalm (ds.getD (i + 1) "")
  · have hlab : (groupLabels ds).getD (i + 1) 0 = (groupLabels ds).getD i 0 := by
      rw [groupLabels_succ ds i h]
      simp [notCalmInt, hc, -List.getD_eq_getElem?_getD]
    rw [hlab]
    have htail :
        ((([i + 1] : List Nat).filter (fun j =>
            (groupLabels ds).getD j 0 == (groupLabels ds).getD i 0)).map
          (fun j => (ds.map calmInt).getD j 0)).sum = 1 := by
      simp [List.filter_cons, hlab, calmVals_getD ds (i + 1) h, calmInt, hc,
        -List.getD_eq_getElem?_getD]
    rw [htail, if_pos hc]
  · have hlab : (groupLabels ds).getD (i + 1) 0 = (groupLabels ds).getD i 0 + 1 := by
      rw [groupLabels_succ ds i h]
      simp [notCalmInt, hc, -List.getD_eq_getElem?_getD]
    have hemp : (List.range (i + 1)).filter (fun j =>
        (groupLabels ds).getD j 0 == (groupLabels ds).getD (i + 1) 0) = [] := by
      rw [List.filter_eq_nil_iff]
      intro j hj
      have hji : j ≤ i := by
        have := List.mem_range.mp hj
        omega
      have hmono := groupLabels_mono ds j i hji hi
      rw [hlab]
      simp only [beq_iff_eq]
      omega
    rw [hemp]
    have htail :
        ((([i + 1] : List Nat).filter (fun j =>
            (groupLabels ds).getD j 0 == (groupLabels ds).getD (i + 1) 0)).map
          (fun j => (ds.map calmInt).getD j 0)).sum = 0 := by
      simp [List.filter_cons, calmVals_getD ds (i + 1) h, calmInt, hc,
        -List.getD_eq_getElem?_getD]
    rw [htail, if_neg hc]
    rfl

/-- C4: for a non-empty sequence, `calm_streak` satisfies the run-length
recurrence of the spec: entry 0 is 1 for a Normal first decision and 0
otherwise, and entry `i` is `calm_streak[i-1] + 1` when decision `i` is
Normal and 0 otherwise; in particular the sequence
`[Normal, Warning, Warning, Warning, Normal]` yields `[1, 0, 0, 0, 1]`. -/
theorem calm_streak_recurrence (ds : List String) (i : Nat) (hi : i < ds.length) :
    (calm_streak_list ds).getD 0 0 = (if isCalm (ds.getD 0 "") then 1 else 0) ∧
    (0 < i →
      (calm_streak_list ds).getD i 0 =
        (if isCalm (ds.getD i "") then (calm_streak_list ds).getD (i - 1) 0 + 1
          else 0)) ∧
    calm_streak_list ["Normal", "Warning", "Warning", "Warning", "Normal"] =
      [1, 0, 0, 0, 1] := by
  refine ⟨?_, ?_, by decide⟩
  · have h0 : 0 < ds.length := Nat.lt_of_le_of_lt (Nat.zero_le i) hi
    rw [calm_streak_base ds h0]
    rfl
  · intro h0
    obtain ⟨k, rfl⟩ : ∃ k, i = k + 1 := ⟨i - 1, by omega⟩
    simpa using calm_streak_step ds k hi

/-- C4 witness: the scenario sequence, at its last position. -/
theorem calm_streak_recurrence_witness :
    4 < (["Normal", "Warning", "Warning", "Warning", "Normal"] :
        List String).length ∧
    ((calm_streak_list ["Normal", "Warning", "Warning", "Warning",
        "Normal"]).getD 0 0 =
      (if isCalm ((["Normal", "Warning", "Warning", "Warning", "Normal"] :
          List String).getD 0 "") then 1 else 0) ∧
    (0 < 4 →
      (calm_streak_list ["Normal", "Warning", "Warning", "Warning",
          "Normal"]).getD 4 0 =
        (if isCalm ((["Normal", "Warning", "Warning", "Warning", "Normal"] :
            List String).getD 4 "") then
          (calm_streak_list ["Normal", "Warning", "Warning", "Warning",
              "Normal"]).getD (4 - 1) 0 + 1
        else 0)) ∧
    calm_streak_list ["Normal", "Warning", "Warning", "Warning", "Normal"] =
      [1, 0, 0, 0, 1]) :=
  ⟨by decide,
   calm_streak_recurrence ["Normal", "Warning", "Warning", "Warning", "Normal"]
     4 (by decide)⟩

/-! ### Frame preservation and idempotence -/

theorem map_zipWith_augmentRow {α : Type} (f : Row → α)
    (hf : ∀ (r : Row) (c : Nat), f (augmentRow r c) = f r) :
    ∀ (rows : List Row) (cs : List Nat), rows.length ≤ cs.length →
      (List.zipWith augmentRow rows cs).map f = rows.map f := by
  intro rows
  induction rows with
  | nil => intro cs h; rfl
  | cons r rs ih =>
    intro cs h
    cases cs with
    | nil => simp at h
    | cons c cs' =>
      simp only [List.zipWith_cons_cons, List.map_cons, hf]
      rw [ih cs' (by simpa using h)]

theorem augment_map_field {α : Type} (f : Row → α)
    (hf : ∀ (r : Row) (c : Nat), f (augmentRow r c) = f r) (rows : List Row) :
    (augment rows).map f = rows.map f := by
  apply map_zipWith_augmentRow f hf
  rw [calm_streak_list_length, List.length_map]

theorem zipWith_augmentRow_twice (rows : List Row) :
    ∀ cs : List Nat,
      List.zipWith augmentRow (List.zipWith augmentRow rows cs) cs =
        List.zipWith augmentRow rows cs := by
  induction rows with
  | nil => intro cs; rfl
  | cons r rs ih =>
    intro cs
    cases cs with
    | nil => rfl
    | cons c cs' =>
      simp only [List.zipWith_cons_cons, ih cs']
      rfl

/-- C9: the analyzer only adds derived columns and read-only views: the
augmentation step leaves every record's `system_decision`, `risk_level`,
`warning_streak` (and `timestamp`) exactly as supplied, and the Warning
view is an order-preserving sublist of the input, so no record's fields
are rewritten — escalation is never re-applied to supplied data. -/
theorem analyzer_frame_preservation (rows : List Row) :
    (augment rows).map (fun r => r.system_decision) =
      rows.map (fun r => r.system_decision) ∧
    (augment rows).map (fun r => r.risk_level) = rows.map (fun r => r.risk_level) ∧
    (augment rows).map (fun r => r.warning_streak) =
      rows.map (fun r => r.warning_streak) ∧
    (augment rows).map (fun r => r.timestamp) = rows.map (fun r => r.timestamp) ∧
    List.Sublist (filterWarnings rows) rows :=
  ⟨augment_map_field (fun r => r.system_decision) (fun _ _ => rfl) rows,
   augment_map_field (fun r => r.risk_level) (fun _ _ => rfl) rows,
   augment_map_field (fun r => r.warning_streak) (fun _ _ => rfl) rows,
   augment_map_field (fun r => r.timestamp) (fun _ _ => rfl) rows,
   List.filter_sublist rows⟩

/-- C8: the calm-streak computation is idempotent: augmenting an
already-augmented sequence rewrites the same values, so the `calm_streak`
column (indeed the whole table) is unchanged by recomputation. -/
theorem calm_streak_idempotent (rows : List Row) :
    augment (augment rows) = augment rows ∧
    (augment (augment rows)).map (fun r => r.calm_streak) =
      (augment rows).map (fun r => r.calm_streak) := by
  have hlen : rows.length ≤
      (calm_streak_list (rows.map (fun r => r.system_decision))).length := by
    rw [calm_streak_list_length, List.length_map]
  have h : augment (augment rows) = augment rows := by
    unfold augment
    rw [map_zipWith_augmentRow (fun r => r.system_decision) (fun _ _ => rfl)
      rows _ hlen]
    exact zipWith_augmentRow_twice rows _
  exact ⟨h, by rw [h]⟩

end SafetyAI
